import Mathlib

set_option autoImplicit false

namespace Tsnet

/-!
Shallow embedding of the tsnet package (Tailscale as a library): the
listener registry, flow resolution and dispatch decisions, the
initialization lifecycle, the loopback gateway, and the `Up` wait loop.
Each definition is translated from the corresponding Go function in
`tsnet.go`; doc comments name the source symbol.
-/

/-- Model of `netip.Addr`: either the zero (invalid/unspecified) value, an
IPv4 address given by its four bytes, or an IPv6 address given by its
128-bit value. Only equality and the Is4/Is6 tests are needed by the
embedded code. -/
inductive Addr where
  | invalid : Addr
  | v4 : Nat → Nat → Nat → Nat → Addr
  | v6 : Nat → Addr
deriving DecidableEq, Repr

/-- Model of `netip.Addr.Is4`. -/
def Addr.is4 : Addr → Bool
  | .v4 _ _ _ _ => true
  | _ => false

/-- Model of `netip.Addr.Is6`. -/
def Addr.is6 : Addr → Bool
  | .v6 _ => true
  | _ => false

/-- Model of `netip.AddrPort`. -/
structure AddrPort where
  addr : Addr
  port : Nat
deriving DecidableEq, Repr

/-- Embeds `listenKey` (tsnet.go): the registry key `{network, host, port}`,
where `host` is the zero `netip.Addr` for an unspecified bind address. -/
structure listenKey where
  network : String
  host : Addr
  port : Nat
deriving DecidableEq, Repr

/-- The `Server.listeners` map, modeled as an association list from keys to
listener identities (a `Nat` stands for the `*listener` pointer). `Listen`
keeps keys unique, matching the Go map. -/
abbrev Registry := List (listenKey × Nat)

/-- Lookup in the `Server.listeners` map: `ln, ok := s.listeners[key]`. -/
def lookupListener : Registry → listenKey → Option Nat
  | [], _ => none
  | (k, v) :: rest, key => if k = key then some v else lookupListener rest key

/-- Deletion from the `Server.listeners` map: `delete(s.listeners, key)`. -/
def eraseKey : Registry → listenKey → Registry
  | [], _ => []
  | (k, v) :: rest, key =>
    if k = key then eraseKey rest key else (k, v) :: eraseKey rest key

/-- Embeds `networkForFamily` (tsnet.go): maps a protocol base ("tcp" or
"udp") and an IPv6 flag to the family-specific network name. Any other
base panics in Go, modeled as `none`. -/
def networkForFamily (netBase : String) (is6 : Bool) : Option String :=
  if netBase = "tcp" then some (if is6 then "tcp6" else "tcp4")
  else if netBase = "udp" then some (if is6 then "udp6" else "udp4")
  else none

/-- Embeds `Server.listenerForDstAddr` (tsnet.go): iterates over the Go
array `[2]netip.Addr{0: dst.Addr()}` (the destination address, then the
zero address) and for each over `[2]string{networkForFamily(netBase,
dst.Addr().Is6()), netBase}`, returning the first registered listener.
The outer `Option` is `none` exactly when `networkForFamily` panics; the
inner `Option` is the `(_ *listener, ok bool)` result. -/
def listenerForDstAddr (listeners : Registry) (netBase : String)
    (dst : AddrPort) : Option (Option Nat) :=
  match networkForFamily netBase dst.addr.is6 with
  | none => none
  | some fam =>
    some (List.findSome?
      (fun a => List.findSome?
        (fun net => lookupListener listeners ⟨net, a, dst.port⟩)
        [fam, netBase])
      [dst.addr, Addr.invalid])

/-- The `(handler, intercept)` pair returned by the flow-interception entry
points; `handler = none` models a nil handler. -/
structure FlowDecision where
  handler : Option Nat
  intercept : Bool
deriving DecidableEq, Repr

/-- Embeds `Server.getTCPHandlerForFlow` (tsnet.go): resolves the
destination restricted to "tcp"; when no listener is found it returns
`nil, true` (the comment in the source reads "don't handle, don't forward
to localhost"), otherwise the listener's handler with `true`. -/
def getTCPHandlerForFlow (listeners : Registry) (src dst : AddrPort) :
    Option FlowDecision :=
  (listenerForDstAddr listeners "tcp" dst).map fun r =>
    match r with
    | none => ⟨none, true⟩
    | some ln => ⟨some ln, true⟩

/-- Embeds `Server.getUDPHandlerForFlow` (tsnet.go): identical resolution
restricted to "udp"; the Go wrapper closure around `ln.handle` carries the
same listener identity. -/
def getUDPHandlerForFlow (listeners : Registry) (src dst : AddrPort) :
    Option FlowDecision :=
  (listenerForDstAddr listeners "udp" dst).map fun r =>
    match r with
    | none => ⟨none, true⟩
    | some ln => ⟨some ln, true⟩

/-- The four-key probe sequence described by the spec, literally: family-
specific network with the exact destination address, protocol base with
the exact destination address, family-specific network with the wildcard
(zero) address, protocol base with the wildcard address, all at the
destination port. -/
def specProbeKeys (netBase fam : String) (dst : AddrPort) : List listenKey :=
  [⟨fam, dst.addr, dst.port⟩, ⟨netBase, dst.addr, dst.port⟩,
   ⟨fam, Addr.invalid, dst.port⟩, ⟨netBase, Addr.invalid, dst.port⟩]

/-- The family-specific network name as the spec words it: the protocol
base suffixed by the destination's IP version. -/
def specFamily (netBase : String) (is6 : Bool) : String :=
  netBase ++ (if is6 then "6" else "4")

/-- The registry with every entry whose key has the empty-string network
removed; used to state that such entries are invisible to resolution. -/
def dropEmptyNetwork : Registry → Registry
  | [] => []
  | (k, v) :: rest =>
    if k.network = "" then dropEmptyNetwork rest
    else (k, v) :: dropEmptyNetwork rest

/-- The mutable listener state of `Server`: the `listeners` map, plus the
trace of `close(ln.conn)` events (each recorded listener identity is one
execution of the Go channel close). -/
structure ServerState where
  listeners : Registry
  closedChans : List Nat
deriving DecidableEq, Repr

/-- An application-held `*listener` handle: its registry key and its
identity (the pointer). -/
structure ListenerHandle where
  key : listenKey
  id : Nat
deriving DecidableEq, Repr

/-- Embeds `listener.Close` (tsnet.go): under the server mutex, if the
registry's current entry for `ln.key` is this very listener, delete the
entry and close the handoff channel; otherwise do nothing. Always returns
nil (`none`). -/
def listener.Close (st : ServerState) (ln : ListenerHandle) :
    ServerState × Option String :=
  match lookupListener st.listeners ln.key with
  | some v =>
    if v = ln.id then
      (⟨eraseKey st.listeners ln.key, st.closedChans ++ [ln.id]⟩, none)
    else (st, none)
  | none => (st, none)

/-- Embeds `listener.Accept` (tsnet.go): the channel receive
`c, ok := <-ln.conn` yields `some c` on a delivered connection and `none`
once the channel is closed, in which case Accept returns the wrapped
`net.ErrClosed` error. -/
def listener.Accept (recv : Option Nat) : Except String Nat :=
  match recv with
  | some c => .ok c
  | none => .error "tsnet: use of closed network connection"

/-- The registration tail of `Server.Listen` (tsnet.go): the `s.Start()`
call, the key construction, the duplicate check under the mutex, and the
insertion via `mak.Set`. `startErr` is the outcome of `s.Start()` and
`newId` the freshly allocated listener identity. -/
def Server.listenFinish (st : ServerState) (network : String)
    (host : Option Addr) (port : Nat) (startErr : Option String)
    (newId : Nat) : ServerState × Except String ListenerHandle :=
  match startErr with
  | some e => (st, .error e)
  | none =>
    let key : listenKey := ⟨network, host.getD Addr.invalid, port⟩
    match lookupListener st.listeners key with
    | some _ => (st, .error ("tsnet: listener already open for " ++ network))
    | none =>
      (⟨st.listeners ++ [(key, newId)], st.closedChans⟩, .ok ⟨key, newId⟩)

/-- Embeds `Server.Listen` (tsnet.go) from the point where
`net.SplitHostPort` and `net.LookupPort` have parsed `addr`: `host` is the
parsed bind address (`none` when the host part of `addr` is empty, in
which case `bindHostOrZero` stays the zero `netip.Addr`), `port` the
resolved port. The network switch, the port range check, the per-family
address checks, the `s.Start()` call and the registry update follow the
source in order. -/
def Server.Listen (st : ServerState) (network : String) (host : Option Addr)
    (port : Nat) (startErr : Option String) (newId : Nat) :
    ServerState × Except String ListenerHandle :=
  if ¬(network = "" ∨ network = "tcp" ∨ network = "tcp4" ∨ network = "tcp6" ∨
       network = "udp" ∨ network = "udp4" ∨ network = "udp6") then
    (st, .error "unsupported network type")
  else if 65535 < port then
    (st, .error "invalid port")
  else
    match host with
    | some h =>
      if network.endsWith "4" && !h.is4 then
        (st, .error ("invalid non-IPv4 addr for network " ++ network))
      else if network.endsWith "6" && !h.is6 then
        (st, .error ("invalid non-IPv6 addr for network " ++ network))
      else Server.listenFinish st network (some h) port startErr newId
    | none => Server.listenFinish st network none port startErr newId

/-- Embeds `closeOnErrorPool` (tsnet.go): the slice of registered release
actions, in registration order; an action is identified by a `Nat` tag. -/
abbrev closeOnErrorPool := List Nat

/-- Embeds `closeOnErrorPool.add` / `addFunc`: appends the release action
to the end of the slice. -/
def closeOnErrorPool.add (p : closeOnErrorPool) (c : Nat) : closeOnErrorPool :=
  p ++ [c]

/-- Embeds `closeOnErrorPool.closeAllIfError`: when the returned error is
non-nil, runs every registered action by ranging over the slice from index
0 upward; the result is the trace of executed actions in execution order.
When the error is nil nothing runs. -/
def closeOnErrorPool.closeAllIfError (p : closeOnErrorPool)
    (errp : Option String) : List Nat :=
  match errp with
  | some _ => p
  | none => []

/-- Embeds the rollback skeleton of `Server.start` (tsnet.go):
`var closePool closeOnErrorPool` followed by
`defer closePool.closeAllIfError(&reterr)` around a sequence of steps,
each of which either fails with an error or succeeds after registering
release actions on the pool variable (via `add`/`addFunc`, in program
order). `closeAllIfError` has a value receiver, and Go evaluates and
saves a deferred method value's receiver when the `defer` statement
executes, so the deferred call holds the pool as it was at that moment —
the nil slice — while the later `add` calls mutate only the variable.
`saved` is that saved receiver copy and `pool` the growing variable; the
result is the function's error and the trace of release actions the
deferred call executes. -/
def runStart (saved pool : closeOnErrorPool) :
    List (Option String × List Nat) → Option String × List Nat
  | [] => (none, closeOnErrorPool.closeAllIfError saved none)
  | (some e, _) :: _ =>
    (some e, closeOnErrorPool.closeAllIfError saved (some e))
  | (none, cs) :: rest =>
    runStart saved (cs.foldl closeOnErrorPool.add pool) rest

/-- The one-time-initialization state of `Server`: whether `initOnce` has
fired, and the stored `initErr`. -/
structure InitState where
  initDone : Bool
  initErr : Option String
deriving DecidableEq, Repr

/-- Embeds `Server.doInit` (tsnet.go): runs `s.start()` (whose outcome is
the parameter) and stores its error wrapped as `tsnet: ...`; a nil outcome
leaves `initErr` nil. -/
def Server.doInit (runOutcome : Option String) : Option String :=
  runOutcome.map (fun e => "tsnet: " ++ e)

/-- Embeds `Server.Start` (tsnet.go): `s.initOnce.Do(s.doInit)` followed by
`return s.initErr`. `sync.Once` serializes callers, so a call is modeled as
a state transition: if the once-guard already fired, the body is skipped
and the stored error returned; otherwise `doInit` runs exactly once. -/
def Server.Start (st : InitState) (runOutcome : Option String) :
    InitState × Option String :=
  if st.initDone then (st, st.initErr)
  else
    let e := Server.doInit runOutcome
    (⟨true, e⟩, e)

/-- Lowercase hexadecimal digit, as used by `encoding/hex`. -/
def hexDigit (n : Nat) : Char :=
  if n < 10 then Char.ofNat (48 + n) else Char.ofNat (87 + n)

/-- Embeds `hex.EncodeToString` over a byte slice: two lowercase hex digits
per byte, in order. -/
def hexEncodeToString : List Nat → String
  | [] => ""
  | b :: rest =>
    String.mk [hexDigit (b / 16 % 16), hexDigit (b % 16)] ++
      hexEncodeToString rest

/-- The loopback-gateway state of `Server`: the `loopbackListener` (modeled
by its bound address string, `none` for nil) and the two stored
credentials. -/
structure LoopbackState where
  loopbackListener : Option String
  proxyCred : String
  localAPICred : String
deriving DecidableEq, Repr

/-- Embeds `Server.Loopback` (tsnet.go). `startErr` is the outcome of
`s.Start()`; `r1` and `r2` are the results of the two `crand.Read` calls
(16 fresh bytes each on success); `listenRes` is the result of
`net.Listen("tcp", "127.0.0.1:0")`, a bound address string on success. The
mutation order follows the source: `proxyCred` is stored before the second
read, `localAPICred` before the listen, and the listener last; when the
listener is already non-nil the whole block is skipped. The background
HTTP and SOCKS5 servers spawned on first open hold no state read here and
are omitted. The final return reads the stored listener address and both
stored credentials; the nil-`Addr` panic branch cannot arise in this model
because the listener is represented by its address. -/
def Server.Loopback (st : LoopbackState) (startErr : Option String)
    (r1 r2 : Except String (List Nat)) (listenRes : Except String String) :
    LoopbackState × Except String (String × String × String) :=
  match startErr with
  | some e => (st, .error e)
  | none =>
    match st.loopbackListener with
    | some a => (st, .ok (a, st.proxyCred, st.localAPICred))
    | none =>
      match r1 with
      | .error e => (st, .error e)
      | .ok b1 =>
        let st1 : LoopbackState := ⟨st.loopbackListener, hexEncodeToString b1,
          st.localAPICred⟩
        match r2 with
        | .error e => (st1, .error e)
        | .ok b2 =>
          let st2 : LoopbackState := ⟨st1.loopbackListener, st1.proxyCred,
            hexEncodeToString b2⟩
          match listenRes with
          | .error e => (st2, .error e)
          | .ok a =>
            let st3 : LoopbackState := ⟨some a, st2.proxyCred, st2.localAPICred⟩
            (st3, .ok (a, st3.proxyCred, st3.localAPICred))

/-- Model of `ipn.State`: the backend state enum. -/
inductive IpnState where
  | NoState
  | InUseOtherUser
  | NeedsLogin
  | NeedsMachineAuth
  | Stopped
  | Starting
  | Running
deriving DecidableEq, Repr

/-- Model of `ipnstate.Status` restricted to the field `Up` reads. -/
structure Status where
  tailscaleIPs : List Addr
deriving DecidableEq, Repr

/-- Model of `ipn.Notify` restricted to the fields `Up` reads: the optional
backend error message and the optional state. -/
structure Notify where
  errMessage : Option String
  state : Option IpnState
deriving DecidableEq, Repr

/-- Embeds the `for` loop of `Server.Up` (tsnet.go) over the stream of
`watcher.Next()` results: a `.error` element is a failed `Next` (which is
how context cancellation of the subscription surfaces), a `.ok` element a
notification. `statusRes` is the result `lc.Status(ctx)` would return when
queried. The loop yields `none` when it consumes every given event without
returning (still blocked waiting for the backend). -/
def upLoop (statusRes : Except String Status) :
    List (Except String Notify) → Option (Except String Status)
  | [] => none
  | .error e :: _ => some (.error ("tsnet.Up: " ++ e))
  | .ok n :: rest =>
    match n.errMessage with
    | some m => some (.error ("tsnet.Up: backend: " ++ m))
    | none =>
      match n.state with
      | some .Running =>
        some (match statusRes with
          | .error e => .error ("tsnet.Up: " ++ e)
          | .ok stat =>
            if stat.tailscaleIPs.length = 0 then
              .error "tsnet.Up: running, but no ip"
            else .ok stat)
      | _ => upLoop statusRes rest

/-- Embeds `Server.Up` (tsnet.go): the `LocalClient()` call (which calls
`Start`), the `WatchIPNBus` subscription, then the notification loop. -/
def Server.Up (lcErr watchErr : Option String)
    (statusRes : Except String Status) (evs : List (Except String Notify)) :
    Option (Except String Status) :=
  match lcErr with
  | some e => some (.error ("tsnet.Up: " ++ e))
  | none =>
    match watchErr with
    | some e => some (.error ("tsnet.Up: " ++ e))
    | none => upLoop statusRes evs

/-- Events the Up loop reads and skips without returning: successful
notifications carrying no error message and no Running state. -/
def upSkips (e : Except String Notify) : Bool :=
  match e with
  | .ok n => n.errMessage.isNone && !(n.state == some IpnState.Running)
  | .error _ => false

/-- For a tcp/udp protocol base, `networkForFamily` returns exactly the
spec's family-specific name: the base suffixed by the IP version. -/
theorem networkForFamily_tcp_udp (netBase : String) (b : Bool)
    (h : netBase = "tcp" ∨ netBase = "udp") :
    networkForFamily netBase b = some (specFamily netBase b) := by
  rcases h with h | h <;> subst h <;> cases b <;> rfl

/-- Resolution equals the first hit over the spec's four-key probe list,
whenever the family name resolves. -/
theorem listenerForDstAddr_probes (l : Registry) (netBase fam : String)
    (dst : AddrPort)
    (hfam : networkForFamily netBase dst.addr.is6 = some fam) :
    listenerForDstAddr l netBase dst =
      some (List.findSome? (lookupListener l) (specProbeKeys netBase fam dst)) := by
  unfold listenerForDstAddr
  rw [hfam]
  simp only [specProbeKeys, List.findSome?]
  cases lookupListener l ⟨fam, dst.addr, dst.port⟩ <;>
    cases lookupListener l ⟨netBase, dst.addr, dst.port⟩ <;>
      cases lookupListener l ⟨fam, Addr.invalid, dst.port⟩ <;>
        cases lookupListener l ⟨netBase, Addr.invalid, dst.port⟩ <;> rfl

/-- C1: for every registry and every inbound flow with protocol base "tcp"
or "udp", resolution probes the registry in exactly the order
(family-specific network for the destination's IP version, exact address,
port), (base, exact address, port), (family-specific network, wildcard
address, port), (base, wildcard address, port) and returns the first hit;
when none of the four keys is registered it returns found=false. -/
theorem claim_C1_resolution_order (l : Registry) (netBase : String)
    (dst : AddrPort) (h : netBase = "tcp" ∨ netBase = "udp") :
    listenerForDstAddr l netBase dst =
      some ((specProbeKeys netBase (specFamily netBase dst.addr.is6)
        dst).findSome? (lookupListener l)) ∧
    ((∀ k ∈ specProbeKeys netBase (specFamily netBase dst.addr.is6) dst,
        lookupListener l k = none) →
      listenerForDstAddr l netBase dst = some none) := by
  have hfam := networkForFamily_tcp_udp netBase dst.addr.is6 h
  have he := listenerForDstAddr_probes l netBase
    (specFamily netBase dst.addr.is6) dst hfam
  refine ⟨he, fun hnone => ?_⟩
  have h1 := hnone ⟨specFamily netBase dst.addr.is6, dst.addr, dst.port⟩
    (by simp [specProbeKeys])
  have h2 := hnone ⟨netBase, dst.addr, dst.port⟩ (by simp [specProbeKeys])
  have h3 := hnone ⟨specFamily netBase dst.addr.is6, Addr.invalid, dst.port⟩
    (by simp [specProbeKeys])
  have h4 := hnone ⟨netBase, Addr.invalid, dst.port⟩ (by simp [specProbeKeys])
  rw [he]
  simp [specProbeKeys, List.findSome?, h1, h2, h3, h4]

/-- The spec's worked example registry: a listener on ("tcp4", 1.2.3.4, 80)
with identity 1 and one on ("tcp", wildcard, 80) with identity 2. -/
def demoRegistry : Registry :=
  [(⟨"tcp4", .v4 1 2 3 4, 80⟩, 1), (⟨"tcp", .invalid, 80⟩, 2)]

/-- Witness for C1: the probe-order theorem applied to the spec's worked
example; concretely the most specific listener wins, and after erasing it
the wildcard one is returned. -/
theorem claim_C1_witness :
    (listenerForDstAddr demoRegistry "tcp" ⟨.v4 1 2 3 4, 80⟩ =
      some ((specProbeKeys "tcp"
        (specFamily "tcp" (AddrPort.mk (.v4 1 2 3 4) 80).addr.is6)
        ⟨.v4 1 2 3 4, 80⟩).findSome? (lookupListener demoRegistry))) ∧
    listenerForDstAddr demoRegistry "tcp" ⟨.v4 1 2 3 4, 80⟩ = some (some 1) ∧
    listenerForDstAddr (eraseKey demoRegistry ⟨"tcp4", .v4 1 2 3 4, 80⟩)
      "tcp" ⟨.v4 1 2 3 4, 80⟩ = some (some 2) :=
  ⟨(claim_C1_resolution_order demoRegistry "tcp" ⟨.v4 1 2 3 4, 80⟩
      (Or.inl rfl)).1, by decide, by decide⟩

/-- C2 counterexample: with no listeners registered, an inbound TCP flow to
1.2.3.4:80 resolves to no listener, yet `getTCPHandlerForFlow` returns a
nil handler with intercept=true ("don't handle, don't forward to
localhost"), which differs from the claimed intercept=false. -/
theorem claim_C2_counterexample :
    listenerForDstAddr [] "tcp" ⟨.v4 1 2 3 4, 80⟩ = some none ∧
    getTCPHandlerForFlow [] ⟨.v4 10 0 0 1, 1234⟩ ⟨.v4 1 2 3 4, 80⟩ =
      some ⟨none, true⟩ ∧
    (⟨none, true⟩ : FlowDecision) ≠ ⟨none, false⟩ :=
  ⟨by decide, by decide, by decide⟩

/-- C2 (amended): for every inbound TCP or UDP flow whose destination
resolves to no registered listener, the flow-interception entry point
returns a nil handler with intercept=true, i.e. "intercept but drop": the
flow is intercepted and dropped rather than left to the virtual stack's
default policy. -/
theorem claim_C2_unmatched_flow_dropped (l : Registry) (src dst : AddrPort) :
    (listenerForDstAddr l "tcp" dst = some none →
      getTCPHandlerForFlow l src dst = some ⟨none, true⟩) ∧
    (listenerForDstAddr l "udp" dst = some none →
      getUDPHandlerForFlow l src dst = some ⟨none, true⟩) := by
  constructor <;> intro h <;>
    simp [getTCPHandlerForFlow, getUDPHandlerForFlow, h]

/-- Witness for C2: the amended theorem applied to the empty registry and a
concrete flow. -/
theorem claim_C2_witness :
    getTCPHandlerForFlow [] ⟨.v4 10 0 0 1, 1234⟩ ⟨.v4 9 9 9 9, 443⟩ =
      some ⟨none, true⟩ :=
  (claim_C2_unmatched_flow_dropped [] ⟨.v4 10 0 0 1, 1234⟩
    ⟨.v4 9 9 9 9, 443⟩).1 (by decide)

/-- When a step fails, the deferred call executes exactly the receiver copy
saved at the defer statement, whatever was registered on the variable in
between. -/
theorem runStart_fail (pre post : List (Option String × List Nat)) (e : String)
    (cs : List Nat) (saved pool : closeOnErrorPool)
    (hpre : ∀ s ∈ pre, s.1 = none) :
    runStart saved pool (pre ++ (some e, cs) :: post) = (some e, saved) := by
  induction pre generalizing pool with
  | nil => rfl
  | cons s rest ih =>
    obtain ⟨o, c⟩ := s
    have ho : o = none := hpre (o, c) (List.mem_cons_self _ _)
    subst ho
    simp only [List.cons_append, runStart]
    exact ih _ (fun x hx => hpre x (List.mem_cons_of_mem _ hx))

/-- When every step succeeds, the function returns nil and the deferred
call executes nothing. -/
theorem runStart_success (steps : List (Option String × List Nat))
    (saved pool : closeOnErrorPool) (h : ∀ s ∈ steps, s.1 = none) :
    runStart saved pool steps = (none, []) := by
  induction steps generalizing pool with
  | nil => rfl
  | cons s rest ih =>
    obtain ⟨o, c⟩ := s
    have ho : o = none := h (o, c) (List.mem_cons_self _ _)
    subst ho
    simp only [runStart]
    exact ih _ (fun x hx => h x (List.mem_cons_of_mem _ hx))

/-- C3: evaluation of the initialization skeleton at a failing run. Two
steps succeed, registering release actions 1 and then 2; the third step
fails. Because the deferred `closeAllIfError` holds the value-receiver
copy saved when the `defer` statement executed — the still-nil pool — the
error is returned with no release action executed at all, although two
were registered; in particular the executed trace is not the claim's
last-in-first-out [2, 1]. -/
theorem claim_C3_no_rollback_executed :
    runStart [] [] [(none, [1]), (none, [2]), (some "boom", [])] =
      (some "boom", []) ∧
    ([] : List Nat) ≠ [2, 1] :=
  ⟨by decide, by decide⟩

/-- C5: the initialization body runs at most once. The first call from a
fresh server stores `doInit`'s outcome (nil on success, the wrapped first
error otherwise); every call after the first performs no initialization —
the state is unchanged and its own init outcome is ignored — and returns
the stored outcome of the first call. `sync.Once` serializes callers, so
concurrent calls are a sequence of these transitions and all observe the
single stored outcome. -/
theorem claim_C5_start_once (st : InitState) (r1 : Option String)
    (hfresh : st.initDone = false) :
    (Server.Start st r1).2 = Server.doInit r1 ∧
    (∀ r2, Server.Start (Server.Start st r1).1 r2 = Server.Start st r1) := by
  constructor
  · simp [Server.Start, hfresh]
  · intro r2
    simp [Server.Start, hfresh]

/-- Witness for C5: a first start failing with "boom" stores the wrapped
sticky error, and a second call with a would-be-successful init returns the
same outcome unchanged. -/
theorem claim_C5_witness :
    (Server.Start ⟨false, none⟩ (some "boom")).2 = Server.doInit (some "boom") ∧
    Server.Start (Server.Start ⟨false, none⟩ (some "boom")).1 none =
      Server.Start ⟨false, none⟩ (some "boom") ∧
    Server.doInit (some "boom") = some "tsnet: boom" :=
  ⟨(claim_C5_start_once ⟨false, none⟩ (some "boom") rfl).1,
   (claim_C5_start_once ⟨false, none⟩ (some "boom") rfl).2 none, rfl⟩

/-- Erasing a key from the registry makes it unresolvable. -/
theorem lookupListener_eraseKey (l : Registry) (k : listenKey) :
    lookupListener (eraseKey l k) k = none := by
  induction l with
  | nil => rfl
  | cons p rest ih =>
    obtain ⟨k1, v1⟩ := p
    by_cases h : k1 = k
    · simp [eraseKey, h, ih]
    · simp [eraseKey, lookupListener, h, ih]

/-- C6: listener Close is idempotent and stale-safe. It always returns nil;
when the registry's current entry for the listener's key is this very
listener, it removes the entry and closes the handoff channel exactly once
(the close trace grows by one event), after which a second Close is a
no-op; when the stored entry is a different listener, Close changes
nothing and the live listener stays resolvable. A closed handoff channel
wakes a blocked Accept with the wrapped closed error. -/
theorem claim_C6_close_idempotent (st : ServerState) (ln : ListenerHandle) :
    (listener.Close st ln).2 = none ∧
    (lookupListener st.listeners ln.key = some ln.id →
      lookupListener (listener.Close st ln).1.listeners ln.key = none ∧
      (listener.Close st ln).1.closedChans = st.closedChans ++ [ln.id] ∧
      listener.Close (listener.Close st ln).1 ln =
        ((listener.Close st ln).1, none)) ∧
    (∀ w, lookupListener st.listeners ln.key = some w → w ≠ ln.id →
      listener.Close st ln = (st, none) ∧
      lookupListener (listener.Close st ln).1.listeners ln.key = some w) ∧
    listener.Accept none = .error "tsnet: use of closed network connection" := by
  refine ⟨?_, ?_, ?_, rfl⟩
  · unfold listener.Close
    cases h : lookupListener st.listeners ln.key with
    | none => rfl
    | some v => by_cases hv : v = ln.id <;> simp [hv]
  · intro h
    simp only [listener.Close, h]
    refine ⟨lookupListener_eraseKey _ _, rfl, ?_⟩
    simp [listener.Close, lookupListener_eraseKey]
  · intro w hw hne
    simp [listener.Close, hw, hne]

/-- A concrete registry key for witnesses. -/
def demoKey : listenKey := ⟨"tcp", .invalid, 8080⟩

/-- Witness for C6: closing a live listener removes it and closes its
channel; the second close is a no-op; a stale handle (the key now stored
for listener 2) closes nothing. -/
theorem claim_C6_witness :
    (listener.Close ⟨[(demoKey, 1)], []⟩ ⟨demoKey, 1⟩).2 = none ∧
    lookupListener
      (listener.Close ⟨[(demoKey, 1)], []⟩ ⟨demoKey, 1⟩).1.listeners demoKey =
      none ∧
    (listener.Close ⟨[(demoKey, 1)], []⟩ ⟨demoKey, 1⟩).1.closedChans = [1] ∧
    listener.Close (listener.Close ⟨[(demoKey, 1)], []⟩ ⟨demoKey, 1⟩).1
        ⟨demoKey, 1⟩ =
      ((listener.Close ⟨[(demoKey, 1)], []⟩ ⟨demoKey, 1⟩).1, none) ∧
    listener.Close ⟨[(demoKey, 2)], []⟩ ⟨demoKey, 1⟩ =
      (⟨[(demoKey, 2)], []⟩, none) := by
  have h1 := claim_C6_close_idempotent ⟨[(demoKey, 1)], []⟩ ⟨demoKey, 1⟩
  have h2 := claim_C6_close_idempotent ⟨[(demoKey, 2)], []⟩ ⟨demoKey, 1⟩
  have hl : lookupListener [(demoKey, 1)] demoKey = some 1 := by decide
  have hl2 : lookupListener [(demoKey, 2)] demoKey = some 2 := by decide
  exact ⟨h1.1, (h1.2.1 hl).1, (h1.2.1 hl).2.1, (h1.2.1 hl).2.2,
    (h2.2.2.1 2 hl2 (by decide)).1⟩

/-- The registration tail of Listen on an already-bound key fails and
leaves the state untouched. -/
theorem listenFinish_dup (st : ServerState) (network : String)
    (host : Option Addr) (port : Nat) (startErr : Option String)
    (newId oldId : Nat)
    (hdup : lookupListener st.listeners
      ⟨network, host.getD Addr.invalid, port⟩ = some oldId) :
    (Server.listenFinish st network host port startErr newId).1 = st ∧
    ∃ e, (Server.listenFinish st network host port startErr newId).2 =
      .error e := by
  unfold Server.listenFinish
  cases startErr with
  | some e => exact ⟨rfl, e, rfl⟩
  | none => simp [hdup]

/-- C7: a second Listen whose parsed network, bind address and port form a
key already present in the registry returns an error and leaves the
registry unmodified: the original listener remains the stored, resolvable
entry, and no new listener is registered. -/
theorem claim_C7_duplicate_listen (st : ServerState) (network : String)
    (host : Option Addr) (port : Nat) (startErr : Option String)
    (newId oldId : Nat)
    (hdup : lookupListener st.listeners
      ⟨network, host.getD Addr.invalid, port⟩ = some oldId) :
    (Server.Listen st network host port startErr newId).1 = st ∧
    (∃ e, (Server.Listen st network host port startErr newId).2 = .error e) ∧
    lookupListener
      (Server.Listen st network host port startErr newId).1.listeners
      ⟨network, host.getD Addr.invalid, port⟩ = some oldId := by
  have hfin := listenFinish_dup st network host port startErr newId oldId hdup
  unfold Server.Listen
  cases host with
  | none =>
    split
    · exact ⟨rfl, ⟨_, rfl⟩, hdup⟩
    split
    · exact ⟨rfl, ⟨_, rfl⟩, hdup⟩
    exact ⟨hfin.1, hfin.2, by rw [hfin.1]; exact hdup⟩
  | some h =>
    split
    · exact ⟨rfl, ⟨_, rfl⟩, hdup⟩
    split
    · exact ⟨rfl, ⟨_, rfl⟩, hdup⟩
    split
    next h2 heq =>
      injection heq with heq2
      subst heq2
      split
      · exact ⟨rfl, ⟨_, rfl⟩, hdup⟩
      split
      · exact ⟨rfl, ⟨_, rfl⟩, hdup⟩
      exact ⟨hfin.1, hfin.2, by rw [hfin.1]; exact hdup⟩
    next heq => exact absurd heq (by simp)

/-- Witness for C7: with listener 1 bound to ("udp", wildcard, 53), a
second Listen for the same key fails, the registry is unchanged, and
listener 1 stays resolvable. -/
theorem claim_C7_witness :
    (Server.Listen ⟨[(⟨"udp", .invalid, 53⟩, 1)], []⟩ "udp" none 53 none 2).1 =
      ⟨[(⟨"udp", .invalid, 53⟩, 1)], []⟩ ∧
    (∃ e, (Server.Listen ⟨[(⟨"udp", .invalid, 53⟩, 1)], []⟩
      "udp" none 53 none 2).2 = .error e) ∧
    lookupListener
      (Server.Listen ⟨[(⟨"udp", .invalid, 53⟩, 1)], []⟩
        "udp" none 53 none 2).1.listeners ⟨"udp", .invalid, 53⟩ = some 1 :=
  claim_C7_duplicate_listen ⟨[(⟨"udp", .invalid, 53⟩, 1)], []⟩ "udp" none 53
    none 2 1 (by decide)

/-- A notification with no error message and a non-Running (or absent)
state is skipped by the Up loop. -/
theorem upLoop_cons_continue (sr : Except String Status) (n : Notify)
    (rest : List (Except String Notify)) (hm : n.errMessage = none)
    (hs : n.state ≠ some IpnState.Running) :
    upLoop sr (Except.ok n :: rest) = upLoop sr rest := by
  cases hstate : n.state with
  | none => simp [upLoop, hm, hstate]
  | some s => cases s <;> simp_all [upLoop]

/-- A successful notification with no error message and a non-Running
state is a skipped event. -/
theorem upSkips_ok (n : Notify) (hm : n.errMessage = none)
    (hs : n.state ≠ some IpnState.Running) : upSkips (Except.ok n) = true := by
  simp [upSkips, hm, hs]

/-- The Up loop reads past a skipped event. -/
theorem upLoop_skips (sr : Except String Status) (e : Except String Notify)
    (rest : List (Except String Notify)) (h : upSkips e = true) :
    upLoop sr (e :: rest) = upLoop sr rest := by
  cases e with
  | error s => simp [upSkips] at h
  | ok n =>
    simp only [upSkips, Bool.and_eq_true, Option.isNone_iff_eq_none,
      Bool.not_eq_true', beq_eq_false_iff_ne, ne_eq] at h
    exact upLoop_cons_continue sr n rest h.1 h.2

/-- The Up loop reads past any prefix of skipped events. -/
theorem upLoop_past_skipped (sr : Except String Status)
    (pre evs : List (Except String Notify))
    (h : ∀ e ∈ pre, upSkips e = true) :
    upLoop sr (pre ++ evs) = upLoop sr evs := by
  induction pre with
  | nil => rfl
  | cons e rest ih =>
    rw [List.cons_append, upLoop_skips sr e _ (h e (List.mem_cons_self _ _)),
      ih (fun x hx => h x (List.mem_cons_of_mem _ hx))]

/-- When the Up loop returns a status, the status query succeeded, the
status carries at least one address, and the stream consists of skipped
events up to a notification reporting the Running state. -/
theorem upLoop_ok_characterization (sr : Except String Status)
    (evs : List (Except String Notify)) (stat : Status)
    (h : upLoop sr evs = some (.ok stat)) :
    sr = .ok stat ∧ stat.tailscaleIPs ≠ [] ∧
    ∃ pre n rest, evs = pre ++ Except.ok n :: rest ∧
      (∀ e ∈ pre, upSkips e = true) ∧ n.errMessage = none ∧
      n.state = some IpnState.Running := by
  induction evs with
  | nil => simp [upLoop] at h
  | cons e rest ih =>
    cases e with
    | error s => simp [upLoop] at h
    | ok n =>
      cases hm : n.errMessage with
      | some m => simp [upLoop, hm] at h
      | none =>
        by_cases hrun : n.state = some IpnState.Running
        · simp only [upLoop, hm, hrun] at h
          cases sr with
          | error e2 => simp at h
          | ok stat2 =>
            by_cases hz : stat2.tailscaleIPs.length = 0
            · simp [hz] at h
            · simp [hz] at h
              subst h
              refine ⟨rfl, ?_, [], n, rest, rfl, by simp, hm, hrun⟩
              intro hnil
              exact hz (by rw [hnil]; rfl)
        · rw [upLoop_cons_continue sr n rest hm hrun] at h
          obtain ⟨h1, h2, pre2, nn, rest2, hevs, hpre2, hm2, hr2⟩ := ih h
          refine ⟨h1, h2, Except.ok n :: pre2, nn, rest2, by rw [hevs]; rfl,
            ?_, hm2, hr2⟩
          intro x hx
          rcases List.mem_cons.mp hx with hx | hx
          · subst hx
            exact upSkips_ok n hm hrun
          · exact hpre2 x hx

/-- C8: the Up loop returns a status only when, after a prefix of skipped
notifications, a notification reported the Running state and the queried
status carries at least one assigned address; whenever the first
non-skipped event is a failed subscription read (the shape context
cancellation takes), a backend error notification, or a Running
notification with a zero-address status, the loop returns an error, never
a status. -/
theorem claim_C8_up_contract (sr : Except String Status)
    (evs : List (Except String Notify)) :
    (∀ stat, upLoop sr evs = some (.ok stat) →
      sr = .ok stat ∧ stat.tailscaleIPs ≠ [] ∧
      ∃ pre n rest, evs = pre ++ Except.ok n :: rest ∧
        (∀ e ∈ pre, upSkips e = true) ∧ n.errMessage = none ∧
        n.state = some IpnState.Running) ∧
    (∀ pre e rest, evs = pre ++ Except.error e :: rest →
      (∀ x ∈ pre, upSkips x = true) →
      upLoop sr evs = some (.error ("tsnet.Up: " ++ e))) ∧
    (∀ pre n m rest, evs = pre ++ Except.ok n :: rest →
      (∀ x ∈ pre, upSkips x = true) → n.errMessage = some m →
      upLoop sr evs = some (.error ("tsnet.Up: backend: " ++ m))) ∧
    (∀ pre n rest stat, evs = pre ++ Except.ok n :: rest →
      (∀ x ∈ pre, upSkips x = true) → n.errMessage = none →
      n.state = some IpnState.Running → sr = .ok stat →
      stat.tailscaleIPs = [] →
      upLoop sr evs = some (.error "tsnet.Up: running, but no ip")) := by
  refine ⟨fun stat h => upLoop_ok_characterization sr evs stat h,
    ?_, ?_, ?_⟩
  · intro pre e rest hevs hpre
    subst hevs
    rw [upLoop_past_skipped sr pre _ hpre]
    simp [upLoop]
  · intro pre n m rest hevs hpre hm
    subst hevs
    rw [upLoop_past_skipped sr pre _ hpre]
    simp [upLoop, hm]
  · intro pre n rest stat hevs hpre hm hrun hsr hnil
    subst hevs
    subst hsr
    rw [upLoop_past_skipped (.ok stat) pre _ hpre]
    simp [upLoop, hm, hrun, hnil]

/-- A concrete status with one assigned address, for witnesses. -/
def demoStatus : Status := ⟨[.v4 100 64 0 1]⟩

/-- A concrete notification stream reporting Starting and then Running. -/
def demoEvents : List (Except String Notify) :=
  [.ok ⟨none, some .Starting⟩, .ok ⟨none, some .Running⟩]

/-- Witness for C8: a stream that reports Starting then Running with a
one-address status yields that status; a failed read, a backend error
notification and a zero-address Running, each arriving after an earlier
skipped notification mid-wait, yield errors. -/
theorem claim_C8_witness :
    ((.ok demoStatus : Except String Status) = .ok demoStatus ∧
      demoStatus.tailscaleIPs ≠ [] ∧
      ∃ pre n rest, demoEvents = pre ++ Except.ok n :: rest ∧
        (∀ e ∈ pre, upSkips e = true) ∧ n.errMessage = none ∧
        n.state = some IpnState.Running) ∧
    upLoop (.ok demoStatus)
      [.ok ⟨none, some .Starting⟩, .error "context canceled"] =
      some (.error ("tsnet.Up: " ++ "context canceled")) ∧
    upLoop (.ok demoStatus)
      [.ok ⟨none, some .NeedsLogin⟩, .ok ⟨some "backend broke", none⟩] =
      some (.error ("tsnet.Up: backend: " ++ "backend broke")) ∧
    upLoop (.ok (Status.mk []))
      [.ok ⟨none, some .Starting⟩, .ok ⟨none, some .Running⟩] =
      some (.error "tsnet.Up: running, but no ip") := by
  refine ⟨?_, ?_, ?_, ?_⟩
  · exact (claim_C8_up_contract (.ok demoStatus) demoEvents).1 demoStatus
      (by simp [demoEvents, demoStatus, upLoop])
  · exact (claim_C8_up_contract (.ok demoStatus)
      [.ok ⟨none, some .Starting⟩, .error "context canceled"]).2.1
      [.ok ⟨none, some .Starting⟩] "context canceled" [] rfl (by decide)
  · exact (claim_C8_up_contract (.ok demoStatus)
      [.ok ⟨none, some .NeedsLogin⟩, .ok ⟨some "backend broke", none⟩]).2.2.1
      [.ok ⟨none, some .NeedsLogin⟩] ⟨some "backend broke", none⟩
      "backend broke" [] rfl (by decide) rfl
  · exact (claim_C8_up_contract (.ok (Status.mk []))
      [.ok ⟨none, some .Starting⟩, .ok ⟨none, some .Running⟩]).2.2.2
      [.ok ⟨none, some .Starting⟩] ⟨none, some .Running⟩ [] (Status.mk [])
      rfl (by decide) rfl rfl rfl rfl

/-- Hex encoding produces two digits per byte. -/
theorem hexEncodeToString_length (bs : List Nat) :
    (hexEncodeToString bs).length = 2 * bs.length := by
  induction bs with
  | nil => rfl
  | cons b rest ih =>
    simp only [hexEncodeToString, String.length_append, ih, List.length_cons]
    have h2 : (String.mk [hexDigit (b / 16 % 16), hexDigit (b % 16)]).length = 2 := rfl
    rw [h2]
    ring

/-- C9: the first successful Loopback call generates the two credentials
from the two independent 16-byte random draws (so each is a fixed-length,
32-digit hex string), opens the socket, and stores all three; every
subsequent call — whatever its would-be random draws or socket — returns
the same address and credentials with the state unchanged, so no new
credential is generated and no new socket is opened. -/
theorem claim_C9_loopback_idempotent (st : LoopbackState) (b1 b2 : List Nat)
    (a : String) (hnil : st.loopbackListener = none) (h1 : b1.length = 16)
    (h2 : b2.length = 16) :
    (Server.Loopback st none (.ok b1) (.ok b2) (.ok a)).2 =
      .ok (a, hexEncodeToString b1, hexEncodeToString b2) ∧
    (hexEncodeToString b1).length = 32 ∧
    (hexEncodeToString b2).length = 32 ∧
    (Server.Loopback st none (.ok b1) (.ok b2) (.ok a)).1 =
      ⟨some a, hexEncodeToString b1, hexEncodeToString b2⟩ ∧
    (∀ r1 r2 lr,
      Server.Loopback (Server.Loopback st none (.ok b1) (.ok b2) (.ok a)).1
        none r1 r2 lr =
      ((Server.Loopback st none (.ok b1) (.ok b2) (.ok a)).1,
        .ok (a, hexEncodeToString b1, hexEncodeToString b2))) := by
  have hfst : (Server.Loopback st none (.ok b1) (.ok b2) (.ok a)).1 =
      ⟨some a, hexEncodeToString b1, hexEncodeToString b2⟩ := by
    simp [Server.Loopback, hnil]
  refine ⟨by simp [Server.Loopback, hnil], ?_, ?_, hfst, ?_⟩
  · rw [hexEncodeToString_length, h1]
  · rw [hexEncodeToString_length, h2]
  · intro r1 r2 lr
    rw [hfst]
    rfl

/-- Witness for C9: a concrete first open with two fixed byte strings and a
loopback address, followed by a second call with different would-be draws
that returns the identical triple. -/
theorem claim_C9_witness :
    (Server.Loopback ⟨none, "", ""⟩ none (.ok (List.replicate 16 0))
      (.ok (List.replicate 16 255)) (.ok "127.0.0.1:4242")).2 =
      .ok ("127.0.0.1:4242", hexEncodeToString (List.replicate 16 0),
        hexEncodeToString (List.replicate 16 255)) ∧
    (hexEncodeToString (List.replicate 16 0)).length = 32 ∧
    Server.Loopback
      (Server.Loopback ⟨none, "", ""⟩ none (.ok (List.replicate 16 0))
        (.ok (List.replicate 16 255)) (.ok "127.0.0.1:4242")).1
      none (.ok [9, 9, 9]) (.error "no entropy") (.ok "127.0.0.1:9999") =
      ((Server.Loopback ⟨none, "", ""⟩ none (.ok (List.replicate 16 0))
        (.ok (List.replicate 16 255)) (.ok "127.0.0.1:4242")).1,
        .ok ("127.0.0.1:4242", hexEncodeToString (List.replicate 16 0),
          hexEncodeToString (List.replicate 16 255))) := by
  have h := claim_C9_loopback_idempotent ⟨none, "", ""⟩ (List.replicate 16 0)
    (List.replicate 16 255) "127.0.0.1:4242" rfl (by decide) (by decide)
  exact ⟨h.1, h.2.1, h.2.2.2.2 (.ok [9, 9, 9]) (.error "no entropy")
    (.ok "127.0.0.1:9999")⟩

/-- Probing a key with a non-empty network never sees registry entries
registered under the empty-string network. -/
theorem lookupListener_dropEmptyNetwork (l : Registry) (k : listenKey)
    (hk : k.network ≠ "") :
    lookupListener (dropEmptyNetwork l) k = lookupListener l k := by
  induction l with
  | nil => rfl
  | cons p rest ih =>
    obtain ⟨k1, v1⟩ := p
    by_cases h : k1.network = ""
    · have hne : ¬(k1 = k) := by
        intro he
        rw [he] at h
        exact hk h
      simp [dropEmptyNetwork, h, lookupListener, hne, ih]
    · by_cases he : k1 = k
      · subst he
        simp [dropEmptyNetwork, h, lookupListener]
      · simp [dropEmptyNetwork, h, lookupListener, he, ih]

/-- Resolution for tcp/udp flows is unchanged when every empty-network
entry is removed from the registry: all four probe keys carry non-empty
networks. -/
theorem listenerForDstAddr_dropEmptyNetwork (l : Registry) (netBase : String)
    (dst : AddrPort) (h : netBase = "tcp" ∨ netBase = "udp") :
    listenerForDstAddr (dropEmptyNetwork l) netBase dst =
      listenerForDstAddr l netBase dst := by
  have hfam := networkForFamily_tcp_udp netBase dst.addr.is6 h
  have h0 : netBase ≠ "" := by
    rcases h with h | h <;> subst h <;> decide
  have h5 : specFamily netBase dst.addr.is6 ≠ "" := by
    rcases h with h | h <;> subst h <;> cases hb : dst.addr.is6 <;>
      simp [specFamily]
  rw [listenerForDstAddr_probes (dropEmptyNetwork l) netBase _ dst hfam,
    listenerForDstAddr_probes l netBase _ dst hfam]
  simp only [specProbeKeys, List.findSome?]
  rw [lookupListener_dropEmptyNetwork l
      ⟨specFamily netBase dst.addr.is6, dst.addr, dst.port⟩ h5,
    lookupListener_dropEmptyNetwork l ⟨netBase, dst.addr, dst.port⟩ h0,
    lookupListener_dropEmptyNetwork l
      ⟨specFamily netBase dst.addr.is6, Addr.invalid, dst.port⟩ h5,
    lookupListener_dropEmptyNetwork l ⟨netBase, Addr.invalid, dst.port⟩ h0]

/-- C10: Listen accepts the empty string as the network argument alongside
the six family names and registers the listener under a key whose network
field is ""; and since resolution only probes the family-specific names
and the tcp/udp bases, removing every empty-network entry never changes
the result of resolution, so such a listener is never returned for any
inbound flow. -/
theorem claim_C10_empty_network (st : ServerState) (host : Option Addr)
    (port newId : Nat) (hport : port ≤ 65535)
    (hfresh : lookupListener st.listeners
      ⟨"", host.getD Addr.invalid, port⟩ = none) :
    (Server.Listen st "" host port none newId).2 =
      .ok ⟨⟨"", host.getD Addr.invalid, port⟩, newId⟩ ∧
    (Server.Listen st "" host port none newId).1.listeners =
      st.listeners ++ [(⟨"", host.getD Addr.invalid, port⟩, newId)] ∧
    (∀ l netBase dst, netBase = "tcp" ∨ netBase = "udp" →
      listenerForDstAddr (dropEmptyNetwork l) netBase dst =
        listenerForDstAddr l netBase dst) := by
  have hp : ¬(65535 < port) := by omega
  refine ⟨?_, ?_, fun l netBase dst h =>
    listenerForDstAddr_dropEmptyNetwork l netBase dst h⟩ <;>
  · cases host with
    | none =>
      have hf2 : lookupListener st.listeners ⟨"", Addr.invalid, port⟩ = none :=
        hfresh
      simp [Server.Listen, Server.listenFinish, hp, hf2]
    | some h =>
      have hf2 : lookupListener st.listeners ⟨"", h, port⟩ = none := hfresh
      have hb4 : "".endsWith "4" = false := rfl
      have hb6 : "".endsWith "6" = false := rfl
      simp [Server.Listen, Server.listenFinish, hp, hf2, hb4, hb6]

/-- Witness for C10: a fresh empty-network listener on port 80 registers
under network "", and resolution of a TCP flow to that very port ignores
it. -/
theorem claim_C10_witness :
    (Server.Listen ⟨[], []⟩ "" none 80 none 7).2 =
      .ok ⟨⟨"", Addr.invalid, 80⟩, 7⟩ ∧
    (Server.Listen ⟨[], []⟩ "" none 80 none 7).1.listeners =
      [(⟨"", Addr.invalid, 80⟩, 7)] ∧
    listenerForDstAddr
      (dropEmptyNetwork [(⟨"", Addr.invalid, 80⟩, 7)]) "tcp"
      ⟨.v4 1 2 3 4, 80⟩ =
      listenerForDstAddr [(⟨"", Addr.invalid, 80⟩, 7)] "tcp"
      ⟨.v4 1 2 3 4, 80⟩ ∧
    listenerForDstAddr [(⟨"", Addr.invalid, 80⟩, 7)] "tcp"
      ⟨.v4 1 2 3 4, 80⟩ = some none := by
  have h := claim_C10_empty_network ⟨[], []⟩ none 80 7 (by omega) rfl
  exact ⟨h.1, by simpa using h.2.1,
    h.2.2 [(⟨"", Addr.invalid, 80⟩, 7)] "tcp" ⟨.v4 1 2 3 4, 80⟩ (Or.inl rfl),
    by decide⟩

end Tsnet
